import Mathlib

/-!
Verification development for the lighterjson in-place JSON minifier
(src/src/lighterjson.c).  The core of the program is embedded shallowly:

* the mmapped byte buffer together with the three cursors `rindex`,
  `windex`, `lindex` and the sentinel `data_end` becomes the structure
  `File`; memory is a total function `Int → Nat` (byte positions are
  measured as offsets from `data_start`; reads outside the buffer, which
  are undefined behaviour in C, return 0 in the model);
* every C function of the core (`write_data`, `do_literal`, `hex_value`,
  `do_unicode`, `do_escape`, `do_string`, `do_object_label`, `do_object`,
  `do_number`, the `Bitfield` operations, `do_value`) is translated
  clause by clause.  Null pointers become `Option Int` (a valid offset is
  never equal to `none`, matching the fact that a valid address is never
  NULL).  `int64_t` quantities (`precision`, `exponent_value`,
  `min_exponent`, …) become unbounded `Int`; the two places where a C
  `int64`/`uint64` could overflow (exponent tokens of 19+ digits, the
  exponent-width probe) cannot be reached by any input considered here;
* the unbounded `while` loops of `do_string` and `do_value` are modelled
  with an explicit fuel parameter returning `Option File` (`none` means
  the fuel ran out; the loops of `do_number` are bounded by cursor
  distances and are given exactly enough fuel to run to completion);
* `do_file`'s in-core part (the `do_value` call(s), the final flush and
  the trailing-newline trim) becomes `do_file_core`, which returns the
  list of output bytes `[0, windex)` — the prefix the driver persists.
-/

set_option maxRecDepth 100000

/-- `INT64_MAX`, used by `hex_value` as the invalid-hex sentinel and as the
precision sentinel that disables rounding. -/
def INT64MAX : Nat := 2 ^ 63 - 1

/-- Model of the C `File` structure: a byte buffer with the three cursors.
`mem` is the byte at each offset from `data_start` (offset 0); reads that
would be out of bounds in C yield 0 here. -/
@[ext] structure File where
  mem : Int → Nat
  data_end : Int
  rindex : Int
  windex : Int
  lindex : Int

/-- Pointwise memory update (a single `*p = v` store). -/
def updateMem (m : Int → Nat) (p : Int) (v : Nat) : Int → Nat :=
  fun j => if j = p then v else m j

/-- C `write_data`: flush the pending span `[lindex, rindex)` down to
`windex` (a downward `memmove`), then skip `index_offset` bytes. -/
def write_data (f : File) (index_offset : Int) : File :=
  let len := f.rindex - f.lindex
  { f with
    mem := fun j => if f.windex ≤ j ∧ j < f.windex + len then f.mem (f.lindex + (j - f.windex)) else f.mem j
    windex := f.windex + len
    rindex := f.rindex + index_offset
    lindex := f.rindex + index_offset }

/-- A single literal byte store at `windex` followed by `++windex`
(the C idiom `*file->windex++ = b`). -/
def emit (f : File) (b : Nat) : File :=
  { f with mem := updateMem f.mem f.windex b, windex := f.windex + 1 }

/-- C `do_literal`: `strncmp` the next `lit.length` bytes against the
literal; on match pass them through, on mismatch flush and skip that many
bytes.  The literals contain no NUL, so `strncmp == 0` is exactly
bytewise equality on the window. -/
def do_literal (f : File) (lit : List Nat) : File :=
  if (List.range lit.length).all (fun i => f.mem (f.rindex + (i : Int)) == lit.getD i 0) then
    { f with rindex := f.rindex + lit.length }
  else
    write_data f lit.length

/-- Value of one ASCII hex digit, `none` if the byte is not a hex digit. -/
def hexDigitVal (x : Nat) : Option Nat :=
  if 48 ≤ x ∧ x ≤ 57 then some (x - 48)
  else if 65 ≤ x ∧ x ≤ 70 then some (x - 65 + 10)
  else if 97 ≤ x ∧ x ≤ 102 then some (x - 97 + 10)
  else none

/-- C `hex_value`: read four hex digits at `rindex` (without advancing);
`INT64MAX` on a truncated or invalid sequence. -/
def hex_value (f : File) : Nat :=
  if f.data_end < f.rindex + 4 then INT64MAX
  else
    match hexDigitVal (f.mem f.rindex), hexDigitVal (f.mem (f.rindex + 1)),
          hexDigitVal (f.mem (f.rindex + 2)), hexDigitVal (f.mem (f.rindex + 3)) with
    | some a, some b, some c, some d => (a <<< 12) + (b <<< 8) + (c <<< 4) + d
    | _, _, _, _ => INT64MAX

/-- The final three-or-four-byte UTF-8 emission of `do_unicode`
(lines 145–154 of the source; note that in the three-byte form the second
byte is emitted without the `0x80` continuation mark, exactly as in the
source). -/
def utf_tail (f : File) (v : Nat) : File :=
  if v < 0x10000 then
    emit (emit (emit f ((((v >>> 12) % 256) &&& 0xF) ||| 0xE0))
      (((v >>> 6) % 256) &&& 0x3F)) (((v % 256) &&& 0x3F) ||| 0x80)
  else
    emit (emit (emit (emit f ((((v >>> 18) % 256) &&& 0x7) ||| 0xF0))
      ((((v >>> 12) % 256) &&& 0x3F) ||| 0x80))
      ((((v >>> 6) % 256) &&& 0x3F) ||| 0x80)) (((v % 256) &&& 0x3F) ||| 0x80)

/-- C `do_unicode`: canonicalise one `\uXXXX` escape whose four hex digits
start at `rindex`.  The surrogate test is the source's bitwise
`value & 0xD800` (not a range check), and a failed second `hex_value`
returns with nothing emitted, as in the source. -/
def do_unicode (f : File) : File :=
  let value := hex_value f
  if value == INT64MAX then f
  else if value < 0x20 then
    let f1 := emit f 92
    if value == 8 then write_data (emit f1 98) 4
    else if value == 12 then write_data (emit f1 102) 4
    else if value == 10 then write_data (emit f1 110) 4
    else if value == 13 then write_data (emit f1 114) 4
    else if value == 9 then write_data (emit f1 116) 4
    else { f1 with lindex := f1.lindex - 1, rindex := f1.rindex + 4 }
  else
    let f2 := write_data f 4
    if value < 0x80 then emit f2 value
    else if value < 0x800 then
      emit (emit f2 ((((value >>> 6) % 256) &&& 0x1F) ||| 0xC0)) (((value % 256) &&& 0x3F) ||| 0x80)
    else
      if value &&& 0xD800 ≠ 0 then
        let value2 := hex_value f2
        if value2 == INT64MAX then f2
        else
          let v := if value2 &&& 0xDC00 ≠ 0 then
              (((value &&& 0x3FF) <<< 10) ||| (value2 &&& 0x3FF)) + 0x10000
            else value
          utf_tail (write_data f2 4) v
      else utf_tail f2 value

/-- C `do_escape`: dispatch on the byte after the backslash.  When the
backslash is the last byte of the buffer the function does nothing
(the source's empty `else` branch marked `TODO: error end of file`). -/
def do_escape (f : File) : File :=
  if f.rindex + 1 < f.data_end then
    let c := f.mem (f.rindex + 1)
    if c == 117 then do_unicode (write_data f 2)
    else if c == 34 ∨ c == 92 ∨ c == 47 ∨ c == 98 ∨ c == 102 ∨ c == 110 ∨ c == 114 ∨ c == 116 then
      { f with rindex := f.rindex + 2 }
    else
      let f1 := write_data f 1
      { f1 with rindex := f1.rindex + 1 }
  else f

/-- The scanning loop of C `do_string`; fuel-indexed because `do_escape`
can fail to advance `rindex` at end of buffer. -/
def do_string_loop : Nat → File → Option File
  | 0, _ => none
  | n + 1, f =>
    if f.rindex < f.data_end then
      let c := f.mem f.rindex
      if c == 92 then do_string_loop n (do_escape f)
      else if c == 34 then some { f with rindex := f.rindex + 1 }
      else do_string_loop n { f with rindex := f.rindex + 1 }
    else some f

/-- C `do_string`: step over the opening quote, then scan. -/
def do_string (fuel : Nat) (f : File) : Option File :=
  do_string_loop fuel { f with rindex := f.rindex + 1 }

/-- The loop of C `do_object_label`: delete bytes until a `"` (label, via
`do_string`, result `false`) or a `}`/end of buffer (result `true`). -/
def do_object_label_loop : Nat → File → Option (File × Bool)
  | 0, _ => none
  | n + 1, f =>
    if f.rindex < f.data_end then
      let c := f.mem f.rindex
      if c == 34 then (do_string n f).map (fun g => (g, false))
      else if c == 125 then some (f, true)
      else do_object_label_loop n (write_data f 1)
    else some (f, true)

/-- The second loop of C `do_object`: delete bytes until a `:`, which is
passed through. -/
def do_object_colon_loop : Nat → File → Option File
  | 0, _ => none
  | n + 1, f =>
    if f.rindex < f.data_end then
      if f.mem f.rindex == 58 then some { f with rindex := f.rindex + 1 }
      else do_object_colon_loop n (write_data f 1)
    else some f

/-- C `do_object`: consume a label and then everything up to the colon. -/
def do_object (fuel : Nat) (f : File) : Option File :=
  match do_object_label_loop fuel f with
  | none => none
  | some (f1, true) => some f1
  | some (f1, false) => do_object_colon_loop fuel f1

/-- Scratch state of the tokenising pass of C `do_number` (§3 "Number
Decomposition" of the spec): the nullable pointers become `Option Int`. -/
structure NumScan where
  decimal : Option Int
  exponent : Option Int
  non_zero_start : Option Int
  non_zero_finish : Option Int
  negative_exponent : Bool
  number_end : Option Int
  i : Int

/-- First tokenising loop of `do_number` (source lines 252–289): walk the
mantissa, recording the decimal point, the exponent marker (with its sign
peek), and the first/last non-zero digit; stop at the first byte that is
none of these, recording `number_end = i - 1`.  Each step advances `i` by
at least one, so fuel `(data_end - i).toNat + 1` always suffices. -/
def numb_scan1 : Nat → File → NumScan → NumScan
  | 0, _, s => s
  | n + 1, f, s =>
    if s.i < f.data_end ∧ s.exponent = none ∧ s.number_end = none then
      let c := f.mem s.i
      if c == 46 then numb_scan1 n f { s with decimal := some s.i, i := s.i + 1 }
      else if c == 101 ∨ c == 69 then
        let s1 := { s with exponent := some s.i }
        if s1.i + 1 < f.data_end then
          let d := f.mem (s1.i + 1)
          if d == 45 then { s1 with negative_exponent := true, i := s1.i + 2 }
          else if d == 43 then { s1 with i := s1.i + 2 }
          else { s1 with i := s1.i + 1 }
        else { s1 with i := s1.i + 1 }
      else if c == 48 then numb_scan1 n f { s with i := s.i + 1 }
      else if 49 ≤ c ∧ c ≤ 57 then
        numb_scan1 n f { s with
          non_zero_start := if s.non_zero_start = none then some s.i else s.non_zero_start,
          non_zero_finish := some s.i, i := s.i + 1 }
      else { s with number_end := some (s.i - 1), i := s.i + 1 }
    else s

/-- Second tokenising loop (source lines 291–312), run only when the first
loop stopped at an exponent marker: scan the exponent digits, recording the
first non-zero one (`exponent_start`) and `number_end`. -/
def numb_scan2 : Nat → File → Int → Option Int → Option Int → Option Int × Option Int × Int
  | 0, _, i, es, ne => (es, ne, i)
  | n + 1, f, i, es, ne =>
    if i < f.data_end ∧ ne = none then
      let c := f.mem i
      if c == 48 then numb_scan2 n f (i + 1) es ne
      else if 49 ≤ c ∧ c ≤ 57 then
        numb_scan2 n f (i + 1) (if es = none then some i else es) ne
      else (es, some (i - 1), i + 1)
    else (es, ne, i)

/-- Exponent-value accumulation loop (source lines 331–336): walk from
`number_end` down to `exponent_start`, summing `(byte - '0') * multiplier`.
Modelled over unbounded `Int` (the C `uint64` multiplier would wrap after
19 digits, which no input considered here reaches). -/
def exp_value_loop : Nat → (Int → Nat) → Int → Int → Int → Int → Int
  | 0, _, _, _, acc, _ => acc
  | n + 1, mem, i, stop, acc, mult =>
    if stop ≤ i then exp_value_loop n mem (i - 1) stop (acc + ((mem i : Int) - 48) * mult) (mult * 10)
    else acc

/-- Rounding carry loop (source lines 358–365): walk backward from `i`;
a `'9'` raises `min_exponent`, a `'.'` is stepped over, any other byte is
incremented in place and the loop breaks.  Returns the new memory, the
final `i` and the new `min_exponent`. -/
def carry_loop : Nat → (Int → Nat) → Int → Int → Int → (Int → Nat) × Int × Int
  | 0, mem, i, _, minE => (mem, i, minE)
  | n + 1, mem, i, nzs, minE =>
    if nzs ≤ i then
      if mem i == 57 then carry_loop n mem (i - 1) nzs (minE + 1)
      else if mem i ≠ 46 then (updateMem mem i (mem i + 1), i, minE)
      else carry_loop n mem (i - 1) nzs minE
    else (mem, i, minE)

/-- Trailing-zero trim loop after rounding (source lines 372–375). -/
def ztrim_loop : Nat → (Int → Nat) → Int → Int → Int → Int × Int
  | 0, _, i, _, minE => (i, minE)
  | n + 1, mem, i, nzs, minE =>
    if nzs ≤ i ∧ mem i == 48 then ztrim_loop n mem (i - 1) nzs (minE + 1)
    else (i, minE)

/-- The exponent-width probe (source lines 461–463):
`for (x = 1; new_exponent / x; x *= 10) ++width` with C truncating
division.  Fuel `ne.natAbs + 1` dominates the digit count. -/
def dec_width_loop : Nat → Int → Int → Nat
  | 0, _, _ => 0
  | n + 1, ne, x => if Int.tdiv ne x = 0 then 0 else 1 + dec_width_loop n ne (x * 10)

/-- Digit emission loop for a rewritten exponent (source lines 479–482):
`while (ne) { *windex-- = ne % 10 + '0'; ne /= 10; }`.  Returns the new
memory and the final cursor; fuel `ne + 1` dominates the digit count. -/
def emit_exp_digits : Nat → (Int → Nat) → Int → Nat → (Int → Nat) × Int
  | 0, mem, pos, _ => (mem, pos)
  | n + 1, mem, pos, ne =>
    if ne == 0 then (mem, pos)
    else emit_exp_digits n (updateMem mem pos (ne % 10 + 48)) (pos - 1) (ne / 10)

/-- C pointer comparison `a < b` where `b` may be NULL: a valid address is
never below NULL. -/
def ltOptPtr (a : Int) (b : Option Int) : Prop :=
  match b with
  | none => False
  | some b => a < b

instance (a : Int) (b : Option Int) : Decidable (ltOptPtr a b) := by
  unfold ltOptPtr; cases b <;> infer_instance

/-- C pointer comparison `a > b` where `b` may be NULL: a valid address is
always above NULL. -/
def gtOptPtr (a : Int) (b : Option Int) : Prop :=
  match b with
  | none => True
  | some b => b < a

instance (a : Int) (b : Option Int) : Decidable (gtOptPtr a b) := by
  unfold gtOptPtr; cases b <;> infer_instance

/-- The comparison `number_end - exponent == width + negative_exponent` of
source line 464; its left conjunct guarantees `exponent` is non-NULL, so
the NULL case is unreachable and modelled as `False`. -/
def expLenEq (exponent : Option Int) (number_end len : Int) : Prop :=
  match exponent with
  | none => False
  | some e => number_end - e = len

instance (b : Option Int) (n l : Int) : Decidable (expLenEq b n l) := by
  unfold expLenEq; cases b <;> infer_instance

/-- C `do_number` (source lines 229–490), translated clause by clause.
`precision` is the global configured precision. -/
def do_number (precision : Int) (f0 : File) : File :=
  let negative := f0.mem f0.rindex == 45
  let f := if negative then { f0 with rindex := f0.rindex + 1 } else f0
  let s := numb_scan1 ((f.data_end - f.rindex).toNat + 1) f
    ⟨none, none, none, none, false, none, f.rindex⟩
  let scan2 :=
    if s.number_end = none then
      numb_scan2 ((f.data_end - s.i).toNat + 1) f s.i none none
    else (none, s.number_end, s.i)
  let exponent_start0 := scan2.1
  let number_end : Int := scan2.2.1.getD (f.data_end - 1)
  match s.non_zero_start with
  | none =>
    -- no non-zero mantissa digit: the zero path (lines 316–327)
    let f1 := if negative then { f with rindex := f.rindex - 1 } else f
    if number_end = f1.rindex then { f1 with rindex := f1.rindex + 1 }
    else emit (write_data f1 (number_end - f1.rindex)) 48
  | some nzs =>
    let nzf0 := s.non_zero_finish.getD nzs
    let exponent_start : Int := exponent_start0.getD number_end
    let exponent_value0 : Int :=
      match s.exponent with
      | some _ => exp_value_loop ((number_end - exponent_start).toNat + 2) f.mem
          number_end exponent_start 0 1
      | none => 0
    let exponent_value := if s.negative_exponent then -exponent_value0 else exponent_value0
    let max_exponent : Int :=
      (match s.decimal with
       | some d => if nzs < d then d - 1 else d
       | none => match s.exponent with
                 | some e => e - 1
                 | none => number_end) - nzs + exponent_value
    let min_exponent : Int :=
      (match s.decimal with
       | some d => if nzf0 < d then d - 1 else d
       | none => match s.exponent with
                 | some e => e - 1
                 | none => number_end) - nzf0 + exponent_value
    if -precision > max_exponent then
      -- the whole value rounds to zero (lines 344–351)
      let f1 := if negative then { f with rindex := f.rindex - 1 } else f
      emit (write_data f1 (number_end - f1.rindex)) 48
    else
      -- optional rounding (lines 352–378)
      let rounded :=
        if -precision > min_exponent then
          let minE := -precision
          let i0 : Int :=
            (match s.decimal with
             | some d => if f.rindex + precision < d then d - 1 else d
             | none => match s.exponent with
                       | some e => e - 1
                       | none => number_end) + precision + exponent_value
          if i0 < nzf0 then
            if 53 ≤ f.mem (i0 + 1) then
              let c1 := carry_loop ((i0 - nzs).toNat + 2) f.mem i0 nzs minE
              let c2 :=
                if c1.2.1 < nzs then (updateMem c1.1 (c1.2.1 + 1) 49, c1.2.1 + 1, max_exponent + 1)
                else (c1.1, c1.2.1, max_exponent)
              let z := ztrim_loop ((c2.2.1 - nzs).toNat + 2) c2.1 c2.2.1 nzs c1.2.2
              (c2.1, z.1, z.2, c2.2.2)
            else
              let z := ztrim_loop ((i0 - nzs).toNat + 2) f.mem i0 nzs minE
              (f.mem, z.1, z.2, max_exponent)
          else (f.mem, i0, minE, max_exponent)
        else (f.mem, nzf0, min_exponent, max_exponent)
      let fR : File := { f with mem := rounded.1 }
      let nzf : Int := rounded.2.1
      let minE : Int := rounded.2.2.1
      let maxE : Int := rounded.2.2.2
      -- shape choice (lines 380–393)
      let digit_width : Int := maxE - minE + 1
      let zeroes0 : Int := if 0 < minE then minE else if maxE < 0 then -maxE else 0
      let new_decimal : Int :=
        if zeroes0 < 3 then (if minE < 0 then (if 0 ≤ maxE then maxE + 1 else 1) else 0) else 0
      let new_exponent : Int := if zeroes0 < 3 then 0 else minE
      let zeroes : Int := if zeroes0 < 3 then zeroes0 else 0
      -- emission (lines 394–489)
      let fA := if fR.rindex < nzs then write_data fR (nzs - fR.rindex) else fR
      let fB :=
        if s.decimal = some (fA.rindex + new_decimal) ∧ exponent_value = new_exponent then
          { fA with rindex := fA.rindex + zeroes + digit_width + 1 }
        else if zeroes ≠ 0 ∧ maxE < 0 then
          -- the 0.0d fixed form (lines 400–420)
          let iP := fA.windex
          let fA1 := { fA with windex := fA.windex + zeroes + 1 }
          let fA2 :=
            if ltOptPtr nzs s.decimal ∧ gtOptPtr nzf s.decimal then
              let d := s.decimal.getD 0
              let g1 := write_data fA1 (d - nzs + 1)
              let g2 := { g1 with rindex := nzf + 1, windex := g1.windex + (d - nzs) }
              let g3 := write_data g2 (-digit_width - 1)
              let g4 := { g3 with rindex := d, windex := iP + zeroes + 1 }
              let g5 := write_data g4 (nzf - d)
              { g5 with windex := g5.windex + (nzf - d) }
            else { fA1 with rindex := nzf + 1 }
          let fA3 := write_data fA2 0
          let fA4 := { fA3 with mem := updateMem (updateMem fA3.mem iP 48) (iP + 1) 46 }
          if 1 < zeroes then { fA4 with mem := updateMem fA4.mem (iP + 2) 48 } else fA4
        else
          -- general fixed / exponential mantissa (lines 421–455)
          let fC :=
            match s.decimal with
            | some d =>
              if (new_decimal = 0 ∧ nzs < d ∧ d < nzf) ∨ (new_decimal ≠ 0 ∧ d < nzs + new_decimal) then
                write_data { fA with rindex := d } 1
              else if new_decimal ≠ 0 ∧ nzs + new_decimal < d then
                let g1 := write_data { fA with rindex := nzs + new_decimal } 0
                let iS := g1.windex
                let g2 := { g1 with windex := g1.windex + 1 }
                let g3 := write_data { g2 with rindex := d } 1
                { g3 with mem := updateMem g3.mem iS 46 }
              else fA
            | none => fA
          let fD :=
            if new_decimal ≠ 0 ∧ gtOptPtr (nzs + new_decimal) s.decimal then
              let hasD : Int := match s.decimal with | some _ => 1 | none => 0
              let g1 := write_data { fC with rindex := nzs + new_decimal + hasD } 0
              let iS := g1.windex
              let g2 := { g1 with windex := g1.windex + 1 }
              let g3 := write_data { g2 with rindex := nzf + 1 } 0
              { g3 with mem := updateMem g3.mem iS 46 }
            else { fC with rindex := nzf + 1 }
          if zeroes ≠ 0 then
            if nzf + 1 + zeroes = (match s.exponent with | some e => e | none => number_end) then
              { fD with rindex := fD.rindex + zeroes }
            else
              let g1 := emit (write_data fD 0) 48
              if 1 < zeroes then emit g1 48 else g1
          else fD
      -- pass or rewrite the exponent (lines 457–486)
      let fE :=
        match s.exponent with
        | some e => if fB.rindex < e then write_data fB (e - fB.rindex) else fB
        | none => fB
      let fF :=
        if new_exponent ≠ 0 then
          let wdt : Nat := dec_width_loop (new_exponent.natAbs + 1) new_exponent 1
          let negW : Int := if s.negative_exponent then 1 else 0
          if exponent_value = new_exponent ∧ expLenEq s.exponent number_end ((wdt : Int) + negW) then
            { fE with rindex := fE.rindex + wdt + negW + 1 }
          else
            let g1 := write_data fE (exponent_start - fE.rindex)
            let g2 := emit g1 69
            let g3 := if new_exponent < 0 then emit g2 45 else g2
            if new_exponent = exponent_value then
              { g3 with rindex := g3.rindex + wdt }
            else
              let g4 := { g3 with windex := g3.windex + wdt - 1 }
              let ne : Nat := new_exponent.natAbs
              let dg := emit_exp_digits (ne + 1) g4.mem g4.windex ne
              { g4 with mem := dg.1, windex := dg.2 + wdt + 1 }
        else fE
      if fF.rindex < number_end then write_data fF (number_end - fF.rindex) else fF

/-- Model of the C `Bitfield` nesting stack.  The word array is a total
function `Nat → Nat` of 64-bit words (the `malloc`/`realloc`-fresh words
are uninitialised in C and immaterial: every bit is written by a push
before any pop can read it at depths below 64); `current` is the tri-state
top indicator (1 object, 0 array, -1 empty). -/
structure Bitfield where
  size : Nat
  bits : Nat → Nat
  bit_level : Nat
  byte_level : Nat
  current : Int

/-- C `init_bits`. -/
def init_bits : Bitfield :=
  { size := 8, bits := fun _ => 0, bit_level := 0, byte_level := 0, current := -1 }

/-- C `increment_bit` (the `realloc` by one byte keeps the model's word
function unchanged). -/
def increment_bit (b : Bitfield) : Bitfield :=
  let b1 := if b.bit_level == 63 then { b with bit_level := 0, byte_level := b.byte_level + 1 }
            else { b with bit_level := b.bit_level + 1 }
  if b1.size < b1.byte_level then { b1 with size := b1.size + 1 } else b1

/-- C `push_set_bit`. -/
def push_set_bit (b : Bitfield) : Bitfield :=
  increment_bit { b with
    current := 1,
    bits := fun k => if k = b.byte_level then b.bits b.byte_level ||| (1 <<< b.bit_level) else b.bits k }

/-- C `push_clear_bit`. -/
def push_clear_bit (b : Bitfield) : Bitfield :=
  increment_bit { b with
    current := 0,
    bits := fun k => if k = b.byte_level then b.bits b.byte_level &&& (2 ^ 64 - 1 - (1 <<< b.bit_level)) else b.bits k }

/-- C `pop_bit`.  The shift amount `bit_level - 1` is the C expression; when
`bit_level = 0` with `byte_level > 0` the C shift count wraps to `SIZE_MAX`
(undefined behaviour, reachable only at depth-64 boundaries); the model's
`Nat` subtraction truncates to 0 there. -/
def pop_bit (b : Bitfield) : Bitfield :=
  let b1 := if b.bit_level == 0 then
      (if 0 < b.byte_level then { b with byte_level := b.byte_level - 1, bit_level := 63 } else b)
    else { b with bit_level := b.bit_level - 1 }
  { b1 with current :=
      if 0 < b1.bit_level ∨ 0 < b1.byte_level then
        ((b1.bits b1.byte_level >>> (b1.bit_level - 1)) &&& 1 : Nat)
      else -1 }

/-- The state loop of C `do_value` (source lines 536–629): dispatch on the
byte at `rindex`.  `line_start` is the second C parameter (mutated by the
newline case), `comma_ok` the separator flag, `bf` the nesting stack.
Fuel-indexed because `do_number` can leave `rindex` unchanged. -/
def do_value_loop (precision : Int) : Nat → Int → Bool → Bitfield → File → Option File
  | 0, _, _, _, _ => none
  | n + 1, line_start, comma_ok, bf, f =>
    if f.rindex < f.data_end then
      let c := f.mem f.rindex
      if c == 34 then
        match do_string n f with
        | none => none
        | some f1 => do_value_loop precision n line_start true bf f1
      else if c == 123 then
        match do_object n { f with rindex := f.rindex + 1 } with
        | none => none
        | some f1 => do_value_loop precision n line_start false (push_set_bit bf) f1
      else if c == 125 then
        if bf.current == 1 then
          do_value_loop precision n line_start true (pop_bit bf) { f with rindex := f.rindex + 1 }
        else do_value_loop precision n line_start comma_ok bf (write_data f 1)
      else if c == 91 then
        do_value_loop precision n line_start false (push_clear_bit bf) { f with rindex := f.rindex + 1 }
      else if c == 93 then
        if bf.current == 0 then
          do_value_loop precision n line_start true (pop_bit bf) { f with rindex := f.rindex + 1 }
        else do_value_loop precision n line_start comma_ok bf (write_data f 1)
      else if c == 44 then
        if comma_ok ∧ bf.current ≠ -1 then
          if bf.current == 1 then
            match do_object n { f with rindex := f.rindex + 1 } with
            | none => none
            | some f1 => do_value_loop precision n line_start comma_ok bf f1
          else do_value_loop precision n line_start comma_ok bf { f with rindex := f.rindex + 1 }
        else do_value_loop precision n line_start comma_ok bf (write_data f 1)
      else if c == 116 then
        do_value_loop precision n line_start true bf (do_literal f [116, 114, 117, 101])
      else if c == 102 then
        do_value_loop precision n line_start true bf (do_literal f [102, 97, 108, 115, 101])
      else if c == 110 then
        do_value_loop precision n line_start true bf (do_literal f [110, 117, 108, 108])
      else if c == 45 ∨ (48 ≤ c ∧ c ≤ 57) then
        do_value_loop precision n line_start true bf (do_number precision f)
      else if c == 10 then
        if line_start == 1 then
          do_value_loop precision n 0 comma_ok bf { f with rindex := f.rindex + 1 }
        else if line_start == 2 then
          do_value_loop precision n line_start comma_ok bf { f with rindex := f.rindex + 1 }
        else do_value_loop precision n line_start comma_ok bf (write_data f 1)
      else do_value_loop precision n line_start comma_ok bf (write_data f 1)
    else some f

/-- C `do_value`: fresh nesting stack, `comma_ok = 0`, then the loop. -/
def do_value (precision : Int) (fuel : Nat) (line_start : Int) (f : File) : Option File :=
  do_value_loop precision fuel line_start false init_bits f

/-- The `while (rindex < data_end) do_value(file, newlines)` loop of
C `do_file` (run only when a newline mode is active). -/
def ndjson_loop (precision newlines : Int) : Nat → File → Option File
  | 0, f => if f.rindex < f.data_end then none else some f
  | n + 1, f =>
    if f.rindex < f.data_end then
      match do_value precision n newlines f with
      | none => none
      | some f1 => ndjson_loop precision newlines n f1
    else some f

/-- Initial `File` over an input byte list: all cursors at offset 0,
`data_end` at its length. -/
def mkFile (input : List Nat) : File :=
  { mem := fun j => if 0 ≤ j then input.getD j.toNat 0 else 0,
    data_end := input.length, rindex := 0, windex := 0, lindex := 0 }

/-- The committed output: the bytes `[0, windex)`. -/
def outBytes (f : File) : List Nat :=
  (List.range f.windex.toNat).map fun i => f.mem (i : Int)

/-- The in-core part of C `do_file` (source lines 683–691): the initial
`do_value` call (`line_start` 2 in preserve mode, else 0), the per-record
loop when a newline mode is on, the final flush, and the trailing-newline
trim of `-n` mode.  Returns the output bytes, or `none` when the fuel ran
out (the source can in fact loop forever; see claim C3). -/
def do_file_core (fuel : Nat) (precision newlines : Int) (input : List Nat) : Option (List Nat) :=
  match do_value precision fuel (if newlines == 2 then 2 else 0) (mkFile input) with
  | none => none
  | some f1 =>
    match (if newlines ≠ 0 then ndjson_loop precision newlines fuel f1 else some f1) with
    | none => none
    | some f2 =>
      let f3 := write_data f2 0
      let f4 := if newlines == 1 ∧ 0 < f3.windex ∧ f3.mem (f3.windex - 1) == 10 then
          { f3 with windex := f3.windex - 1 }
        else f3
      some (outBytes f4)

/-- The state reached after the garbage-deleting loops of `do_object_label`
and `do_object` have consumed `k` bytes: the pending span `[lindex, rindex)`
is flushed exactly once, and both `rindex` and `lindex` then advance past
the `k` deleted bytes; nothing is ever emitted for them. -/
def skipState (f : File) (k : Nat) : File :=
  if k = 0 then f else
  { f with
    mem := fun j => if f.windex ≤ j ∧ j < f.windex + (f.rindex - f.lindex) then f.mem (f.lindex + (j - f.windex)) else f.mem j,
    windex := f.windex + (f.rindex - f.lindex),
    rindex := f.rindex + k,
    lindex := f.rindex + k }

/-- Concrete state for the witness of C10: the read cursor faces the
garbage bytes `x:` (an unquoted key and a stray colon) before a quoted
label. -/
def c10wF : File :=
  { mem := fun j => if j = 0 then 120 else if j = 1 then 58 else if j = 2 then 34 else if j = 3 then 97 else 0,
    data_end := 6, rindex := 0, windex := 0, lindex := 0 }

/-- Concrete state for the witness of C10: the garbage bytes ` y` stand
between a label's closing quote and the colon. -/
def c10wG : File :=
  { mem := fun j => if j = 0 then 32 else if j = 1 then 121 else if j = 2 then 58 else 0,
    data_end := 5, rindex := 0, windex := 0, lindex := 0 }

lemma do_string_loop_stuck (f : File) (h1 : f.rindex + 1 = f.data_end)
    (h2 : f.mem f.rindex = 92) : ∀ n, do_string_loop n f = none := by
  intro n
  induction n with
  | zero => rfl
  | succ n ih =>
    have hr : f.rindex < f.data_end := by omega
    have hesc : do_escape f = f := by
      unfold do_escape
      rw [if_neg (by omega)]
    rw [do_string_loop, if_pos hr]
    simp only [h2]
    norm_num [hesc, ih]

lemma do_value_stuck (p : Int) (fuel : Nat) (ls : Int) :
    do_value p fuel ls (mkFile [34, 92]) = none := by
  cases fuel with
  | zero => rfl
  | succ n =>
    rw [do_value, do_value_loop]
    rw [if_pos (by norm_num [mkFile])]
    have hm : (mkFile [34, 92]).mem (mkFile [34, 92]).rindex = 34 := by decide
    simp only [hm]
    norm_num [do_string]
    have hstuck : do_string_loop n { mkFile [34, 92] with rindex := (mkFile [34, 92]).rindex + 1 } = none := by
      apply do_string_loop_stuck
      · decide
      · decide
    rw [hstuck]

lemma skipState_succ (f : File) (k : Nat) :
    skipState f (k + 1) = skipState (write_data f 1) k := by
  unfold skipState write_data
  cases k with
  | zero =>
    norm_num
  | succ k =>
    norm_num
    constructor
    · funext j
      have h : ¬(f.windex + (f.rindex - f.lindex) ≤ j ∧ j < f.windex + (f.rindex - f.lindex)) := by omega
      rw [if_neg h]
    · ring

lemma write_data_one_mem_high (f : File) (x : Int)
    (hx : f.windex + (f.rindex - f.lindex) ≤ x) : (write_data f 1).mem x = f.mem x := by
  show (if f.windex ≤ x ∧ x < f.windex + (f.rindex - f.lindex)
        then f.mem (f.lindex + (x - f.windex)) else f.mem x) = f.mem x
  rw [if_neg (by omega)]

lemma do_object_label_loop_skip :
    ∀ (k : Nat) (f : File) (fuel : Nat),
      f.windex ≤ f.lindex → f.lindex ≤ f.rindex → f.rindex + k ≤ f.data_end →
      (∀ j : Nat, j < k → f.mem (f.rindex + j) ≠ 34 ∧ f.mem (f.rindex + j) ≠ 125) →
      do_object_label_loop (k + fuel) f = do_object_label_loop fuel (skipState f k) := by
  intro k
  induction k with
  | zero =>
    intro f fuel _ _ _ _
    simp [skipState]
  | succ k ih =>
    intro f fuel h1 h2 h3 hg
    have h3i : f.rindex + ((k : Int) + 1) ≤ f.data_end := by push_cast at h3; omega
    have hr : f.rindex < f.data_end := by omega
    have hc := hg 0 (by omega)
    norm_num at hc
    have hk : k + 1 + fuel = (k + fuel) + 1 := by omega
    rw [hk, do_object_label_loop, if_pos hr]
    have h34 : (f.mem f.rindex == 34) = false := by simp [hc.1]
    have h125 : (f.mem f.rindex == 125) = false := by simp [hc.2]
    simp only [h34, h125, Bool.false_eq_true, if_false]
    rw [skipState_succ]
    apply ih (write_data f 1) fuel
    · show f.windex + (f.rindex - f.lindex) ≤ f.rindex + 1
      omega
    · show f.rindex + 1 ≤ f.rindex + 1
      omega
    · show f.rindex + 1 + (k : Int) ≤ f.data_end
      omega
    · intro j hj
      show (write_data f 1).mem (f.rindex + 1 + (j : Int)) ≠ 34 ∧
           (write_data f 1).mem (f.rindex + 1 + (j : Int)) ≠ 125
      rw [write_data_one_mem_high f _ (by omega)]
      have hgj := hg (j + 1) (by omega)
      push_cast at hgj
      have hpos : f.rindex + 1 + (j : Int) = f.rindex + ((j : Int) + 1) := by ring
      rw [hpos]
      exact hgj

lemma do_object_colon_loop_skip :
    ∀ (k : Nat) (f : File) (fuel : Nat),
      f.windex ≤ f.lindex → f.lindex ≤ f.rindex → f.rindex + k ≤ f.data_end →
      (∀ j : Nat, j < k → f.mem (f.rindex + j) ≠ 58) →
      do_object_colon_loop (k + fuel) f = do_object_colon_loop fuel (skipState f k) := by
  intro k
  induction k with
  | zero =>
    intro f fuel _ _ _ _
    simp [skipState]
  | succ k ih =>
    intro f fuel h1 h2 h3 hg
    have h3i : f.rindex + ((k : Int) + 1) ≤ f.data_end := by push_cast at h3; omega
    have hr : f.rindex < f.data_end := by omega
    have hc := hg 0 (by omega)
    norm_num at hc
    have hk : k + 1 + fuel = (k + fuel) + 1 := by omega
    rw [hk, do_object_colon_loop, if_pos hr]
    have h58 : (f.mem f.rindex == 58) = false := by simp [hc]
    simp only [h58, Bool.false_eq_true, if_false]
    rw [skipState_succ]
    apply ih (write_data f 1) fuel
    · show f.windex + (f.rindex - f.lindex) ≤ f.rindex + 1
      omega
    · show f.rindex + 1 ≤ f.rindex + 1
      omega
    · show f.rindex + 1 + (k : Int) ≤ f.data_end
      omega
    · intro j hj
      show (write_data f 1).mem (f.rindex + 1 + (j : Int)) ≠ 58
      rw [write_data_one_mem_high f _ (by omega)]
      have hgj := hg (j + 1) (by omega)
      push_cast at hgj
      have hpos : f.rindex + 1 + (j : Int) = f.rindex + ((j : Int) + 1) := by ring
      rw [hpos]
      exact hgj

/-- Claim C1: for a well-formed JSON document, with rounding disabled
(precision = INT64_MAX) and newline mode off, the minified output parses to
the same JSON value as the input.  The code violates this: the well-formed
document `10` minifies to `100` (the final skip of `do_number` stops one
byte short of the token end, and the leftover `0` is re-consumed and passed
through as a second number), which denotes a different value. -/
theorem c1_semantic_preservation_fails :
    do_file_core 200 ((INT64MAX : Nat) : Int) 0 [49, 48] = some [49, 48, 48] := by
  decide

/-- Claim C2: with finite precision the output number should be
`round_half_away_from_zero(v, P)` in shortest form; in particular `9.95`
at precision 1 should give `10`.  The code instead outputs `105`: the carry
is applied, `10` is emitted, but the final skip leaves the last digit `5`
of the original token, which is re-consumed as a fresh number token and
emitted. -/
theorem c2_rounding_half_away_fails :
    do_file_core 200 1 0 [57, 46, 57, 53] = some [49, 48, 53] := by
  decide

/-- Claim C3: minification should terminate for every input buffer and
every configuration.  It does not: on the two-byte buffer `"\`
(quote, backslash) `do_escape` finds the backslash on the last byte and
returns without advancing `rindex` (the source's empty branch marked
`TODO: error end of file`), so the `do_string` scan loop repeats the same
state forever.  In the fuel model: no amount of fuel makes `do_file_core`
finish, for any precision and any newline mode. -/
theorem c3_minifier_diverges (fuel : Nat) (precision newlines : Int) :
    do_file_core fuel precision newlines [34, 92] = none := by
  rw [do_file_core, do_value_stuck]

/-- Claim C4: a token needing three or more filler zeros should be emitted
in exponential form — `100000` as `1E5` — and no output token should admit
a strictly shorter legal form of the same value.  The code violates this:
`100000` produces `1E50` (the `E5` is emitted, but the final skip leaves
the token's last `0`, which is then passed through after the exponent),
which is not even the same value. -/
theorem c4_exponential_form_fails :
    do_file_core 200 ((INT64MAX : Nat) : Int) 0 [49, 48, 48, 48, 48, 48] = some [49, 69, 53, 48] := by
  decide

/-- Claim C5: a high surrogate `\uD83D` followed by the low surrogate
`\uDE00` should combine to U+1F600 and be replaced by its four UTF-8
bytes.  The code instead drops both escapes and emits nothing: after
skipping the first four hex digits it reads the next four bytes `\uDE` as
hex (the second `\u` is never skipped), fails, and returns; the second
escape then fails the same way against the closing quote.  The string
`"😀"` minifies to `""`. -/
theorem c5_surrogate_pair_escapes_dropped :
    do_file_core 200 ((INT64MAX : Nat) : Int) 0
      [34, 92, 117, 68, 56, 51, 68, 92, 117, 68, 69, 48, 48, 34] = some [34, 34] := by
  decide

/-- Claim C6: a numeric token with no non-zero digit should be replaced by
the single byte `0` with the minus sign dropped.  The code emits two
bytes: for `-0.000` it emits a literal `0` and then passes the token's
final `0` through as a second zero token, producing `00`. -/
theorem c6_zero_token_not_single_byte :
    do_file_core 200 ((INT64MAX : Nat) : Int) 0 [45, 48, 46, 48, 48, 48] = some [48, 48] := by
  decide

/-- Claim C7: the minified output should never be longer than the input.
The code violates this already at the default configuration: the two-byte
input `10` produces the three-byte output `100` (the final flush of the
leftover byte happens after `windex` has caught up with `rindex`, writing
past the end of the original data). -/
theorem c7_output_exceeds_input_length :
    (do_file_core 200 ((INT64MAX : Nat) : Int) 0 [49, 48]).map List.length = some 3 := by
  decide

/-- Claim C8: minification should be idempotent on well-formed JSON.  It
is not: the well-formed document `3.00` minifies to `30`, and `30`
minifies to `300`, so the second pass changes (and lengthens!) the output
of the first. -/
theorem c8_idempotence_fails :
    do_file_core 200 ((INT64MAX : Nat) : Int) 0 [51, 46, 48, 48] = some [51, 48] ∧
    do_file_core 200 ((INT64MAX : Nat) : Int) 0 [51, 48] = some [51, 48, 48] := by
  constructor <;> decide

/-- Claim C9: in NDJSON mode each newline after a completed top-level
value should be preserved as a record separator (with runs collapsed in
non-preserve mode).  In `-n` mode (`newlines = 1`) the code deletes every
newline: the initial `do_value` call receives `line_start = 0` and
consumes the whole buffer, so the per-record loop never runs and `1\n2\n`
minifies to `12` instead of `1\n2`. -/
theorem c9_ndjson_separators_dropped :
    do_file_core 300 ((INT64MAX : Nat) : Int) 1 [49, 10, 50, 10] = some [49, 50] := by
  decide

/-- Claim C10: in the object sub-state, every byte before the first `"` or
`}` — quote and closing brace excepted — and every byte between a label's
closing quote and the colon is deleted from the output.  Confirmed: if the
`k` bytes at the read cursor are none of `"`/`}`, the label loop reaches
exactly the state in which the pending span was flushed once and the `k`
bytes were stepped over with nothing emitted for them (`skipState`), and
likewise the colon loop for `k` bytes that are not `:`; so none of those
bytes can appear in the output. -/
theorem c10_object_garbage_deleted (f g : File) (k m fuel1 fuel2 : Nat)
    (hf1 : f.windex ≤ f.lindex) (hf2 : f.lindex ≤ f.rindex) (hf3 : f.rindex + k ≤ f.data_end)
    (hfg : ∀ j : Nat, j < k → f.mem (f.rindex + j) ≠ 34 ∧ f.mem (f.rindex + j) ≠ 125)
    (hg1 : g.windex ≤ g.lindex) (hg2 : g.lindex ≤ g.rindex) (hg3 : g.rindex + m ≤ g.data_end)
    (hgc : ∀ j : Nat, j < m → g.mem (g.rindex + j) ≠ 58) :
    do_object_label_loop (k + fuel1) f = do_object_label_loop fuel1 (skipState f k) ∧
    do_object_colon_loop (m + fuel2) g = do_object_colon_loop fuel2 (skipState g m) :=
  ⟨do_object_label_loop_skip k f fuel1 hf1 hf2 hf3 hfg,
   do_object_colon_loop_skip m g fuel2 hg1 hg2 hg3 hgc⟩

/-- Witness for C10 at the concrete states `c10wF` (garbage `x:` before a
label) and `c10wG` (garbage ` y` before a colon), two bytes each. -/
theorem c10_object_garbage_deleted_witness :
    do_object_label_loop (2 + 3) c10wF = do_object_label_loop 3 (skipState c10wF 2) ∧
    do_object_colon_loop (2 + 3) c10wG = do_object_colon_loop 3 (skipState c10wG 2) :=
  c10_object_garbage_deleted c10wF c10wG 2 2 3 3 (by decide) (by decide) (by decide)
    (by decide) (by decide) (by decide) (by decide) (by decide)
